import Mathlib

/-!
Verification of the Decode-Indias-Fields backend (src/app.py).

Shallow embedding of the two Flask request handlers in `src/app.py`:

* `analyze_crop` (lines 36-53): the crop simulator, modelled with the two
  random draws of `random.choice` / `random.randint` passed in as natural
  number parameters (`random.choice` picks the element at a uniformly random
  index of the list; `random.randint 85 98` yields one of the 14 values
  `85 + r % 14`).
* `get_farming_tips` (lines 55-105): the tip generator.  Python strings are
  modelled as `List Char`; `str.replace old ""` is `removeAll`, `str.strip`
  is `pyStrip` (ASCII whitespace), the Gemini client initialisation outcome
  is a `Bool`, the parsed `cropName` field of the request body is an
  `Option JValue` (`none` when absent, matching `data.get('cropName')`),
  and `model.generate_content` followed by reading `.text` is a function
  `List Char → Except String (List Char)` (`.error` when any exception is
  raised; the payload is the exception detail).
-/

/-- A JSON scalar value, as Flask's `request.get_json()` would deliver the
`cropName` field.  (Nested arrays/objects are not needed by any claim.) -/
inductive JValue where
  | jnull
  | jbool (b : Bool)
  | jnum (n : Int)
  | jstr (s : List Char)
deriving DecidableEq, Repr

/-- Python truthiness (`bool(v)`) of a JSON scalar: `None`, `False`, `0` and
`""` are falsy, everything else is truthy. -/
def truthy : JValue → Bool
  | .jnull => false
  | .jbool b => b
  | .jnum n => if n = 0 then false else true
  | .jstr s => if s = [] then false else true

/-- Truthiness of `data.get('cropName')`: an absent field is `None`, falsy. -/
def pyTruthy : Option JValue → Bool
  | none => false
  | some v => truthy v

/-- Python `str(v)` of a JSON scalar, as the f-string interpolation
`{crop_name}` would render it. -/
def pystr : JValue → List Char
  | .jnull => ("None").data
  | .jbool true => ("True").data
  | .jbool false => ("False").data
  | .jnum n => (toString n).data
  | .jstr s => s

/-- `str(crop_name)` where `crop_name = data.get('cropName')`. -/
def pyStrOf : Option JValue → List Char
  | none => ("None").data
  | some v => pystr v

/-- `p` is an initial segment of `s` (Python `s.startswith(p)`). -/
def begins : List Char → List Char → Bool
  | [], _ => true
  | _ :: _, [] => false
  | a :: p, b :: s => if a = b then begins p s else false

/-- `p` occurs as a contiguous substring of `s` (Python `p in s`). -/
def occurs (p : List Char) : List Char → Bool
  | [] => begins p []
  | c :: rest => begins p (c :: rest) || occurs p rest

/-- Scanner for Python `s.replace(a :: p, "")`: `k` counts characters still
to be deleted from the tail of an occurrence already matched; at `k = 0` the
scan either matches the pattern at the current position (deleting the head
and scheduling the remaining `p.length` characters for deletion) or emits
the head.  This is exactly Python's left-to-right, non-overlapping
replacement, with the scan resuming immediately after a deleted occurrence. -/
def removeAllAux (a : Char) (p : List Char) : List Char → Nat → List Char
  | [], _ => []
  | _ :: rest, k + 1 => removeAllAux a p rest k
  | c :: rest, 0 =>
      if begins (a :: p) (c :: rest) then removeAllAux a p rest p.length
      else c :: removeAllAux a p rest 0

/-- Python `s.replace(a :: p, "")` for the non-empty pattern `a :: p`. -/
def removeAll (a : Char) (p : List Char) (s : List Char) : List Char :=
  removeAllAux a p s 0

/-- Python whitespace, exactly the set `str.strip()` removes (CPython's
`Py_UNICODE_ISSPACE`): `0x09`-`0x0D` (tab, LF, VT, FF, CR), the file/group/
record/unit separators `0x1C`-`0x1F`, space, NEL `0x85`, NBSP `0xA0`, Ogham
space mark `0x1680`, the Unicode spaces `0x2000`-`0x200A`, line separator
`0x2028`, paragraph separator `0x2029`, NNBSP `0x202F`, MMSP `0x205F` and
ideographic space `0x3000`. -/
def pySpace (c : Char) : Bool :=
  (0x09 ≤ c.toNat && c.toNat ≤ 0x0D) || (0x1C ≤ c.toNat && c.toNat ≤ 0x1F) ||
  c.toNat = 0x20 || c.toNat = 0x85 || c.toNat = 0xA0 || c.toNat = 0x1680 ||
  (0x2000 ≤ c.toNat && c.toNat ≤ 0x200A) || c.toNat = 0x2028 || c.toNat = 0x2029 ||
  c.toNat = 0x202F || c.toNat = 0x205F || c.toNat = 0x3000

/-- Python `s.lstrip()`. -/
def pyLStrip (s : List Char) : List Char := s.dropWhile pySpace

/-- Python `s.rstrip()`. -/
def pyRStrip (s : List Char) : List Char := (s.reverse.dropWhile pySpace).reverse

/-- Python `s.strip()`. -/
def pyStrip (s : List Char) : List Char := pyRStrip (pyLStrip s)

/-- The code-fence marker: three backticks. -/
def fence : List Char := ['`', '`', '`']

/-- The tagged code-fence marker: three backticks followed by `html`. -/
def fenceHtml : List Char := ['`', '`', '`', 'h', 't', 'm', 'l']

/-- Line 99 of src/app.py:
`response.text.replace("```html", "").replace("```", "").strip()`. -/
def sanitizeTips (s : List Char) : List Char :=
  pyStrip (removeAll '`' ['`', '`'] (removeAll '`' ['`', '`', 'h', 't', 'm', 'l'] s))

/-- Line 43 of src/app.py. -/
def possible_crops : List String := ["Wheat", "Rice", "Sugarcane", "Cotton", "Mustard"]

/-- The JSON body returned by `/analyze-crop`. -/
structure CropAnalysis where
  crop : String
  confidence : Nat
deriving DecidableEq, Repr

/-- Lines 36-53 of src/app.py.  `r1` and `r2` are the uniform random draws
consumed by `random.choice` (index into the list) and `random.randint 85 98`
(offset into the inclusive range). -/
def analyze_crop (r1 r2 : Nat) : CropAnalysis :=
  { crop := possible_crops.get ⟨r1 % possible_crops.length, Nat.mod_lt r1 (by decide)⟩
    confidence := 85 + r2 % 14 }

/-- The HTTP outcome of `/get-farming-tips`: either `200 {"tips": t}` or
`status {"error": msg}`. -/
inductive TipsResult where
  | success (tips : List Char)
  | failure (status : Nat) (errMsg : String)
deriving DecidableEq, Repr

/-- Lines 74-91 of src/app.py: the f-string prompt, with the two
interpolations of `crop_name` made explicit. -/
def prompt (crop_name : List Char) : List Char :=
  ("\n    Act as an expert agronomist specializing in smallholder farms in Northern India.\n    Provide practical, concise farming tips for the crop: ").data
  ++ crop_name
  ++ (".\n    The audience is a tech-savvy individual at a hackathon, so the tips should be clear and actionable.\n    \n    IMPORTANT: Format the entire response as an HTML unordered list (`<ul>`). \n    Each list item (`<li>`) should contain one tip.\n    Each tip should start with a relevant emoji.\n    \n    Example for \"Tomatoes\":\n    <ul>\n        <li>💧 **Water Management:** Ensure consistent watering to prevent blossom-end rot. Drip irrigation is highly effective.</li>\n        <li>🐛 **Pest Control:** Regularly inspect for hornworms and use neem oil as a natural pesticide.</li>\n        <li>🌱 **Soil Health:** Maintain a soil pH between 6.2 and 6.8 and enrich with compost before planting.</li>\n    </ul>\n\n    Generate the tips for ").data
  ++ crop_name
  ++ (" now.\n    ").data

/-- Lines 55-105 of src/app.py.  `modelOk` is whether the module-level
`model` is non-`None`; `cropName` is `data.get('cropName')`; `generate`
models `model.generate_content(...)` followed by reading `.text`
(`.error e` when any exception is raised, with `e` the exception detail). -/
def get_farming_tips (modelOk : Bool) (cropName : Option JValue)
    (generate : List Char → Except String (List Char)) : TipsResult :=
  if modelOk = false then .failure 500 "Gemini API not configured"
  else if pyTruthy cropName = false then .failure 400 "Crop name is required"
  else
    match generate (prompt (pyStrOf cropName)) with
    | .ok text => .success (sanitizeTips text)
    | .error _ => .failure 500 "Failed to get tips from Gemini API"

/-! Basic facts about `begins` and `occurs`. -/

theorem begins_nil_pat (s : List Char) : begins [] s = true := by
  cases s <;> simp [begins]

theorem begins_nil_str (p : List Char) (h : begins p [] = true) : p = [] := by
  cases p with
  | nil => rfl
  | cons a p => simp [begins] at h

theorem occurs_nil_pat (s : List Char) : occurs [] s = true := by
  induction s with
  | nil => simp [occurs, begins]
  | cons c rest ih => simp [occurs, begins_nil_pat, ih]

theorem begins_append_mono (p : List Char) :
    ∀ s u, begins p s = true → begins p (s ++ u) = true := by
  induction p with
  | nil => intro s u _; exact begins_nil_pat _
  | cons a p ih =>
    intro s u h
    cases s with
    | nil => simp [begins] at h
    | cons b s =>
      simp only [begins, List.cons_append] at h ⊢
      by_cases hab : a = b
      · simp only [if_pos hab] at h ⊢
        exact ih s u h
      · simp [if_neg hab] at h

theorem begins_self_append (p u : List Char) : begins p (p ++ u) = true := by
  induction p with
  | nil => exact begins_nil_pat _
  | cons a p ih => simp [begins, ih]

theorem begins_trans (p : List Char) :
    ∀ q s, begins p q = true → begins q s = true → begins p s = true := by
  induction p with
  | nil => intro q s _ _; exact begins_nil_pat _
  | cons a p ih =>
    intro q s h1 h2
    cases q with
    | nil => simp [begins] at h1
    | cons b q =>
      simp only [begins] at h1
      by_cases hab : a = b
      · simp only [if_pos hab] at h1
        cases s with
        | nil => simp [begins] at h2
        | cons c s =>
          simp only [begins] at h2 ⊢
          by_cases hbc : b = c
          · simp only [if_pos hbc] at h2
            simp only [if_pos (hab.trans hbc)]
            exact ih q s h1 h2
          · simp [if_neg hbc] at h2
      · simp [if_neg hab] at h1

theorem occurs_append_left (p : List Char) :
    ∀ s t, occurs p t = true → occurs p (s ++ t) = true := by
  intro s
  induction s with
  | nil => intro t h; simpa using h
  | cons c s ih =>
    intro t h
    simp only [List.cons_append, occurs, Bool.or_eq_true]
    exact Or.inr (ih t h)

theorem occurs_append_right (p : List Char) :
    ∀ s u, occurs p s = true → occurs p (s ++ u) = true := by
  intro s
  induction s with
  | nil =>
    intro u h
    simp only [occurs] at h
    have := begins_nil_str p h
    subst this
    simpa using occurs_nil_pat u
  | cons c s ih =>
    intro u h
    simp only [occurs, Bool.or_eq_true] at h ⊢
    rcases h with h | h
    · exact Or.inl (by simpa [List.cons_append] using begins_append_mono p (c :: s) u h)
    · exact Or.inr (ih u h)

theorem occurs_self_append (p u : List Char) : occurs p (p ++ u) = true := by
  cases p with
  | nil => exact occurs_nil_pat u
  | cons a p =>
    simp only [occurs, List.cons_append, Bool.or_eq_true]
    exact Or.inl (by simpa [List.cons_append] using begins_self_append (a :: p) u)

theorem occurs_mono_pat (p q : List Char) (hpq : begins p q = true) :
    ∀ s, occurs q s = true → occurs p s = true := by
  intro s
  induction s with
  | nil =>
    intro h
    simp only [occurs] at h ⊢
    have := begins_nil_str q h
    subst this
    exact begins_trans p [] [] hpq h
  | cons c s ih =>
    intro h
    simp only [occurs, Bool.or_eq_true] at h ⊢
    rcases h with h | h
    · exact Or.inl (begins_trans p q (c :: s) hpq h)
    · exact Or.inr (ih h)

/-! Equations for `removeAll`. -/

theorem removeAllAux_skip (a : Char) (p : List Char) :
    ∀ s k, removeAllAux a p s k = removeAllAux a p (s.drop k) 0 := by
  intro s
  induction s with
  | nil => intro k; simp [removeAllAux]
  | cons c rest ih =>
    intro k
    cases k with
    | zero => simp
    | succ k => simpa [removeAllAux] using ih k

theorem removeAll_cons (a : Char) (p : List Char) (c : Char) (rest : List Char) :
    removeAll a p (c :: rest) =
      if begins (a :: p) (c :: rest) then removeAll a p (rest.drop p.length)
      else c :: removeAll a p rest := by
  by_cases h : begins (a :: p) (c :: rest) = true
  · simp only [removeAll, removeAllAux, if_pos h]
    exact removeAllAux_skip a p rest p.length
  · simp only [removeAll, removeAllAux, if_neg h]

theorem removeAll_not_occurs (a : Char) (p : List Char) :
    ∀ s, occurs (a :: p) s = false → removeAll a p s = s := by
  intro s
  induction s with
  | nil => intro _; rfl
  | cons c rest ih =>
    intro h
    simp only [occurs, Bool.or_eq_false_iff] at h
    rw [removeAll_cons, if_neg (by simp [h.1]), ih h.2]

/-! After deleting every occurrence of three backticks, no three consecutive
backticks remain: Python's left-to-right scan reduces every maximal backtick
run modulo 3, and deletions never merge two runs (only backticks are
deleted). -/

theorem begins_bbb_ne1 (c : Char) (t : List Char) (h : ¬ '`' = c) :
    begins ['`', '`', '`'] (c :: t) = false := by
  simp [begins, h]

theorem begins_bbb_ne2 (d : Char) (t : List Char) (h : ¬ '`' = d) :
    begins ['`', '`', '`'] ('`' :: d :: t) = false := by
  simp [begins, h]

theorem begins_bbb_ne3 (e : Char) (t : List Char) (h : ¬ '`' = e) :
    begins ['`', '`', '`'] ('`' :: '`' :: e :: t) = false := by
  simp [begins, h]

theorem removeAll_bbb_match (t : List Char) :
    removeAll '`' ['`', '`'] ('`' :: '`' :: '`' :: t) = removeAll '`' ['`', '`'] t := rfl

theorem removeAll_bbb_ne1 (c : Char) (t : List Char) (h : ¬ '`' = c) :
    removeAll '`' ['`', '`'] (c :: t) = c :: removeAll '`' ['`', '`'] t := by
  rw [removeAll_cons, if_neg (by simp [begins, h])]

theorem removeAll_bbb_ne2 (d : Char) (t : List Char) (h : ¬ '`' = d) :
    removeAll '`' ['`', '`'] ('`' :: d :: t) =
      '`' :: removeAll '`' ['`', '`'] (d :: t) := by
  rw [removeAll_cons, if_neg (by simp [begins, h])]

theorem removeAll_bbb_ne3 (e : Char) (t : List Char) (h : ¬ '`' = e) :
    removeAll '`' ['`', '`'] ('`' :: '`' :: e :: t) =
      '`' :: '`' :: removeAll '`' ['`', '`'] (e :: t) := by
  rw [removeAll_cons, if_neg (by simp [begins, h]), removeAll_bbb_ne2 e t h]

theorem occurs_cons (p : List Char) (c : Char) (t : List Char) :
    occurs p (c :: t) = (begins p (c :: t) || occurs p t) := rfl

theorem noFence_bound :
    ∀ n, ∀ s : List Char, s.length ≤ n →
      occurs ['`', '`', '`'] (removeAll '`' ['`', '`'] s) = false := by
  intro n
  induction n with
  | zero =>
    intro s hs
    have hnil : s = [] := List.length_eq_zero.mp (Nat.le_zero.mp hs)
    subst hnil
    decide
  | succ n ih =>
    intro s hs
    cases s with
    | nil => decide
    | cons c rest =>
      by_cases h1 : '`' = c
      case neg =>
        rw [removeAll_bbb_ne1 c rest h1, occurs_cons, begins_bbb_ne1 c _ h1]
        simp only [Bool.false_or]
        exact ih rest (by simp only [List.length_cons] at hs; omega)
      case pos =>
      subst h1
      cases rest with
      | nil => decide
      | cons d rest2 =>
        by_cases h2 : '`' = d
        case neg =>
          rw [removeAll_bbb_ne2 d rest2 h2, removeAll_bbb_ne1 d rest2 h2]
          rw [occurs_cons, begins_bbb_ne2 d _ h2, occurs_cons, begins_bbb_ne1 d _ h2]
          simp only [Bool.false_or]
          exact ih rest2 (by simp only [List.length_cons] at hs; omega)
        case pos =>
        subst h2
        cases rest2 with
        | nil => decide
        | cons e rest3 =>
          by_cases h3 : '`' = e
          case neg =>
            rw [removeAll_bbb_ne3 e rest3 h3, removeAll_bbb_ne1 e rest3 h3]
            rw [occurs_cons, begins_bbb_ne3 e _ h3, occurs_cons, begins_bbb_ne2 e _ h3,
              occurs_cons, begins_bbb_ne1 e _ h3]
            simp only [Bool.false_or]
            exact ih rest3 (by simp only [List.length_cons] at hs; omega)
          case pos =>
          subst h3
          rw [removeAll_bbb_match]
          exact ih rest3 (by simp only [List.length_cons] at hs; omega)

theorem noFence (s : List Char) :
    occurs ['`', '`', '`'] (removeAll '`' ['`', '`'] s) = false :=
  noFence_bound s.length s le_rfl

/-! Facts about `pyStrip`. -/

theorem head_dropWhile_false :
    ∀ (l : List Char) (c : Char), (l.dropWhile pySpace).head? = some c → pySpace c = false := by
  intro l
  induction l with
  | nil => intro c h; simp [List.dropWhile] at h
  | cons a l ih =>
    intro c h
    rw [List.dropWhile_cons] at h
    by_cases ha : pySpace a = true
    · exact ih c (by rwa [if_pos ha] at h)
    · rw [if_neg ha, List.head?_cons] at h
      cases h
      exact Bool.eq_false_iff.mpr ha

theorem dropWhile_space_idem (l : List Char) :
    (l.dropWhile pySpace).dropWhile pySpace = l.dropWhile pySpace := by
  induction l with
  | nil => rfl
  | cons a l ih =>
    rw [List.dropWhile_cons]
    by_cases ha : pySpace a = true
    · rw [if_pos ha]; exact ih
    · rw [if_neg ha, List.dropWhile_cons, if_neg ha]

theorem dropWhile_append_last (c : Char) (hc : pySpace c = false) :
    ∀ l : List Char, (l ++ [c]).dropWhile pySpace = l.dropWhile pySpace ++ [c] := by
  intro l
  induction l with
  | nil => simp [List.dropWhile_cons, hc]
  | cons a l ih =>
    rw [List.cons_append, List.dropWhile_cons, List.dropWhile_cons]
    by_cases ha : pySpace a = true
    · rw [if_pos ha, if_pos ha]; exact ih
    · rw [if_neg ha, if_neg ha, List.cons_append]

theorem pyRStrip_cons (c : Char) (t : List Char) (hc : pySpace c = false) :
    pyRStrip (c :: t) = c :: pyRStrip t := by
  simp only [pyRStrip, List.reverse_cons, dropWhile_append_last c hc, List.reverse_append,
    List.reverse_cons, List.reverse_nil, List.nil_append, List.cons_append]

theorem pyRStrip_idem (t : List Char) : pyRStrip (pyRStrip t) = pyRStrip t := by
  simp only [pyRStrip, List.reverse_reverse, dropWhile_space_idem]

theorem getLast_pyRStrip_false (t : List Char) (c : Char)
    (h : (pyRStrip t).getLast? = some c) : pySpace c = false := by
  rw [pyRStrip, List.getLast?_reverse] at h
  exact head_dropWhile_false _ c h

theorem pyLStrip_pyStrip (s : List Char) : pyLStrip (pyStrip s) = pyStrip s := by
  rw [pyStrip]
  cases hl : pyLStrip s with
  | nil => rfl
  | cons a t =>
    have ha : pySpace a = false :=
      head_dropWhile_false s a (by rw [← pyLStrip, hl, List.head?_cons])
    rw [pyRStrip_cons a t ha, pyLStrip, List.dropWhile_cons, if_neg (by simp [ha])]

theorem pyStrip_idem (s : List Char) : pyStrip (pyStrip s) = pyStrip s := by
  rw [pyStrip, pyLStrip_pyStrip, pyStrip, pyRStrip_idem]

theorem head_pyStrip_false (s : List Char) (c : Char)
    (h : (pyStrip s).head? = some c) : pySpace c = false := by
  rw [pyStrip] at h
  cases hl : pyLStrip s with
  | nil => rw [hl] at h; simp [pyRStrip] at h
  | cons a t =>
    have ha : pySpace a = false :=
      head_dropWhile_false s a (by rw [← pyLStrip, hl, List.head?_cons])
    rw [hl, pyRStrip_cons a t ha, List.head?_cons] at h
    cases h
    exact ha

theorem getLast_pyStrip_false (s : List Char) (c : Char)
    (h : (pyStrip s).getLast? = some c) : pySpace c = false :=
  getLast_pyRStrip_false _ c h

theorem pyLStrip_id (s : List Char)
    (h : ∀ c, s.head? = some c → pySpace c = false) : pyLStrip s = s := by
  cases s with
  | nil => rfl
  | cons a t =>
    rw [pyLStrip, List.dropWhile_cons, if_neg (by simp [h a List.head?_cons])]

theorem pyRStrip_id (s : List Char)
    (h : ∀ c, s.getLast? = some c → pySpace c = false) : pyRStrip s = s := by
  rw [pyRStrip]
  cases hr : s.reverse with
  | nil =>
    have : s = [] := by simpa using congrArg List.reverse hr
    simp [this]
  | cons a t =>
    have ha : pySpace a = false := by
      apply h a
      rw [← List.head?_reverse, hr, List.head?_cons]
    rw [List.dropWhile_cons, if_neg (by simp [ha]), ← hr, List.reverse_reverse]

theorem pyStrip_id (s : List Char)
    (h1 : ∀ c, s.head? = some c → pySpace c = false)
    (h2 : ∀ c, s.getLast? = some c → pySpace c = false) : pyStrip s = s := by
  rw [pyStrip, pyLStrip_id s h1, pyRStrip_id s h2]

theorem occurs_dropWhile (p : List Char) :
    ∀ l : List Char, occurs p (l.dropWhile pySpace) = true → occurs p l = true := by
  intro l
  induction l with
  | nil => intro h; simpa using h
  | cons a l ih =>
    intro h
    rw [List.dropWhile_cons] at h
    by_cases ha : pySpace a = true
    · rw [if_pos ha] at h
      rw [occurs_cons, Bool.or_eq_true]
      exact Or.inr (ih h)
    · rwa [if_neg ha] at h

theorem exists_dropWhile_prefix (l : List Char) :
    ∃ w, l = w ++ l.dropWhile pySpace := by
  induction l with
  | nil => exact ⟨[], rfl⟩
  | cons a l ih =>
    rw [List.dropWhile_cons]
    by_cases ha : pySpace a = true
    · obtain ⟨w, hw⟩ := ih
      exact ⟨a :: w, by rw [if_pos ha, List.cons_append, ← hw]⟩
    · exact ⟨[], by rw [if_neg ha, List.nil_append]⟩

theorem occurs_pyRStrip (p t : List Char) (h : occurs p (pyRStrip t) = true) :
    occurs p t = true := by
  obtain ⟨w, hw⟩ := exists_dropWhile_prefix t.reverse
  have ht : t = pyRStrip t ++ w.reverse := by
    rw [pyRStrip]
    have := congrArg List.reverse hw
    rw [List.reverse_reverse, List.reverse_append] at this
    exact this
  rw [ht]
  exact occurs_append_right p _ w.reverse h

theorem occurs_pyStrip_false (p s : List Char) (h : occurs p s = false) :
    occurs p (pyStrip s) = false := by
  cases h2 : occurs p (pyStrip s) with
  | false => rfl
  | true =>
    have := occurs_dropWhile p s (occurs_pyRStrip p (pyLStrip s) h2)
    rw [h] at this
    cases this

/-! Sanitization-level consequences. -/

theorem occurs_fenceHtml_false (s : List Char) (h : occurs fence s = false) :
    occurs fenceHtml s = false := by
  cases hq : occurs fenceHtml s with
  | false => rfl
  | true =>
    have := occurs_mono_pat fence fenceHtml (by decide) s hq
    rw [h] at this
    cases this

theorem sanitize_noFence (s : List Char) : occurs fence (sanitizeTips s) = false := by
  rw [sanitizeTips]
  apply occurs_pyStrip_false
  simpa [fence] using noFence (removeAll '`' ['`', '`', 'h', 't', 'm', 'l'] s)

theorem sanitize_noFenceHtml (s : List Char) :
    occurs fenceHtml (sanitizeTips s) = false :=
  occurs_fenceHtml_false _ (sanitize_noFence s)

theorem sanitize_head_false (s : List Char) (c : Char)
    (h : (sanitizeTips s).head? = some c) : pySpace c = false := by
  rw [sanitizeTips] at h
  exact head_pyStrip_false _ c h

theorem sanitize_getLast_false (s : List Char) (c : Char)
    (h : (sanitizeTips s).getLast? = some c) : pySpace c = false := by
  rw [sanitizeTips] at h
  exact getLast_pyStrip_false _ c h

theorem sanitize_fixed (s : List Char) : sanitizeTips (sanitizeTips s) = sanitizeTips s := by
  have h1 : occurs fence (sanitizeTips s) = false := sanitize_noFence s
  have h2 : occurs fenceHtml (sanitizeTips s) = false := sanitize_noFenceHtml s
  have key : pyStrip (sanitizeTips s) = sanitizeTips s := by
    rw [sanitizeTips]
    exact pyStrip_idem _
  calc sanitizeTips (sanitizeTips s)
      = pyStrip (removeAll '`' ['`', '`']
          (removeAll '`' ['`', '`', 'h', 't', 'm', 'l'] (sanitizeTips s))) := rfl
    _ = pyStrip (removeAll '`' ['`', '`'] (sanitizeTips s)) := by
          rw [removeAll_not_occurs '`' ['`', '`', 'h', 't', 'm', 'l'] (sanitizeTips s)
            (by simpa [fenceHtml] using h2)]
    _ = pyStrip (sanitizeTips s) := by
          rw [removeAll_not_occurs '`' ['`', '`'] (sanitizeTips s)
            (by simpa [fence] using h1)]
    _ = sanitizeTips s := key

theorem occurs_self (p : List Char) : occurs p p = true := by
  have := occurs_self_append p []
  rwa [List.append_nil] at this

/-! Claim theorems. -/

/-- C1 (counterexample): with body `{}` and an uninitialized client, the
handler does NOT return `400 Crop name is required` — the readiness check at
line 62 of src/app.py runs before the validation at line 69, so the response
is `500 Gemini API not configured`. -/
theorem readiness_before_validation_cex :
    get_farming_tips false none (fun _ => Except.ok []) ≠
      TipsResult.failure 400 "Crop name is required" := by
  decide

/-- C1 (amended): a request whose body lacks `cropName` yields
`400 {"error": "Crop name is required"}` whenever the external client
initialized; the readiness check precedes validation in the linear pass, so
with an uninitialized client the same request yields
`500 {"error": "Gemini API not configured"}` instead. -/
theorem missing_cropName_responses (g : List Char → Except String (List Char)) :
    get_farming_tips true none g = .failure 400 "Crop name is required" ∧
    get_farming_tips false none g = .failure 500 "Gemini API not configured" :=
  ⟨rfl, rfl⟩

/-- C2: with a valid (truthy) `cropName` and a client that failed to
initialize, the handler answers `500 {"error": "Gemini API not configured"}`,
and the outcome does not depend on the external service at all (no call is
attempted). -/
theorem not_configured_short_circuits (cn : Option JValue)
    (g : List Char → Except String (List Char)) (_h : pyTruthy cn = true) :
    get_farming_tips false cn g = .failure 500 "Gemini API not configured" ∧
    ∀ g2 : List Char → Except String (List Char),
      get_farming_tips false cn g = get_farming_tips false cn g2 :=
  ⟨rfl, fun _ => rfl⟩

/-- C2 (witness): instantiated at `cropName = "Wheat"`. -/
theorem not_configured_short_circuits_witness :
    pyTruthy (some (.jstr (("Wheat").data))) = true ∧
    get_farming_tips false (some (.jstr (("Wheat").data))) (fun _ => Except.ok []) =
      .failure 500 "Gemini API not configured" :=
  ⟨by decide,
    (not_configured_short_circuits (some (.jstr (("Wheat").data)))
      (fun _ => Except.ok []) (by decide)).1⟩

/-- C3: with a valid `cropName` and an initialized client, if the external
call (or reading its response text) raises — whatever the exception detail
`e` — the response is exactly `500 {"error": "Failed to get tips from Gemini
API"}`; the detail `e` never reaches the response. -/
theorem upstream_failure_uniform_500 (cn : Option JValue) (e : String)
    (h : pyTruthy cn = true) :
    get_farming_tips true cn (fun _ => Except.error e) =
      .failure 500 "Failed to get tips from Gemini API" := by
  simp [get_farming_tips, h]

/-- C3 (witness): instantiated at `cropName = "Rice"` and a concrete
exception text. -/
theorem upstream_failure_uniform_500_witness :
    pyTruthy (some (.jstr (("Rice").data))) = true ∧
    get_farming_tips true (some (.jstr (("Rice").data)))
        (fun _ => Except.error "socket timeout: 10.0.0.7") =
      .failure 500 "Failed to get tips from Gemini API" :=
  ⟨by decide,
    upstream_failure_uniform_500 (some (.jstr (("Rice").data)))
      "socket timeout: 10.0.0.7" (by decide)⟩

/-- C4: the fence-stripping-and-trim step of line 99 is idempotent:
sanitizing already-sanitized text changes nothing. -/
theorem sanitizeTips_idempotent (x : List Char) :
    sanitizeTips (sanitizeTips x) = sanitizeTips x :=
  sanitize_fixed x

/-- C5: for every raw response text, the 200 response carries the sanitized
text, which contains no code-fence marker (tagged or untagged) and neither
leading nor trailing whitespace. -/
theorem success_response_sanitized (raw : List Char) (cn : Option JValue)
    (h : pyTruthy cn = true) :
    get_farming_tips true cn (fun _ => Except.ok raw) = .success (sanitizeTips raw) ∧
    occurs fence (sanitizeTips raw) = false ∧
    occurs fenceHtml (sanitizeTips raw) = false ∧
    (∀ c, (sanitizeTips raw).head? = some c → pySpace c = false) ∧
    (∀ c, (sanitizeTips raw).getLast? = some c → pySpace c = false) :=
  ⟨by simp [get_farming_tips, h], sanitize_noFence raw, sanitize_noFenceHtml raw,
    sanitize_head_false raw, sanitize_getLast_false raw⟩

/-- C5 (witness): a fenced raw response for `cropName = "Tomatoes"` comes
back with the fences and surrounding whitespace stripped. -/
theorem success_response_sanitized_witness :
    pyTruthy (some (.jstr (("Tomatoes").data))) = true ∧
    get_farming_tips true (some (.jstr (("Tomatoes").data)))
        (fun _ => Except.ok (("```html\n<ul><li>x</li></ul>\n```").data)) =
      .success (("<ul><li>x</li></ul>").data) := by
  constructor
  · decide
  · rw [(success_response_sanitized (("```html\n<ul><li>x</li></ul>\n```").data)
      (some (.jstr (("Tomatoes").data))) (by decide)).1]
    decide

/-- C6: whatever the two random draws, the simulated crop is one of the five
fixed names and the confidence is an integer in `[85, 98]`. -/
theorem analyze_crop_range (r1 r2 : Nat) :
    (analyze_crop r1 r2).crop ∈ possible_crops ∧
    85 ≤ (analyze_crop r1 r2).confidence ∧ (analyze_crop r1 r2).confidence ≤ 98 := by
  refine ⟨List.get_mem _ _ _, by simp [analyze_crop], ?_⟩
  have : r2 % 14 < 14 := Nat.mod_lt r2 (by decide)
  simp only [analyze_crop]
  omega

/-- C7: a raw response text containing no triple-backtick substring and no
leading or trailing whitespace is returned verbatim in the 200 response:
sanitization is the identity on clean text, and no structural validation is
applied. -/
theorem sanitize_identity_on_clean (x : List Char) (cn : Option JValue)
    (hcn : pyTruthy cn = true)
    (hf : occurs fence x = false)
    (h1 : ∀ c, x.head? = some c → pySpace c = false)
    (h2 : ∀ c, x.getLast? = some c → pySpace c = false) :
    get_farming_tips true cn (fun _ => Except.ok x) = .success x := by
  have hfh : occurs fenceHtml x = false := occurs_fenceHtml_false x hf
  have hx : sanitizeTips x = x := by
    rw [sanitizeTips,
      removeAll_not_occurs '`' ['`', '`', 'h', 't', 'm', 'l'] x
        (by simpa [fenceHtml] using hfh),
      removeAll_not_occurs '`' ['`', '`'] x (by simpa [fence] using hf),
      pyStrip_id x h1 h2]
  simp [get_farming_tips, hcn, hx]

/-- C7 (witness): a clean HTML list for `cropName = "Mustard"` is returned
unchanged. -/
theorem sanitize_identity_on_clean_witness :
    get_farming_tips true (some (.jstr (("Mustard").data)))
        (fun _ => Except.ok (("<ul><li>ok</li></ul>").data)) =
      .success (("<ul><li>ok</li></ul>").data) :=
  sanitize_identity_on_clean (("<ul><li>ok</li></ul>").data)
    (some (.jstr (("Mustard").data))) (by decide) (by decide)
    (by
      intro c hc
      rw [show ((("<ul><li>ok</li></ul>").data).head? = some '<') from by decide] at hc
      cases hc
      decide)
    (by
      intro c hc
      rw [show ((("<ul><li>ok</li></ul>").data).getLast? = some '>') from by decide] at hc
      cases hc
      decide)

set_option maxRecDepth 100000 in
/-- C8: for every crop name, the instruction string contains the agronomist
persona, the crop name itself, the mandate sentences fixing the output
structure (HTML unordered list, one tip per item, each tip starting with an
emoji), and the worked example for the reference crop `Tomatoes` whose items
carry bolded labels followed by descriptive text. -/
theorem prompt_contains_required_parts (crop : List Char) :
    occurs (("Act as an expert agronomist specializing in smallholder farms in Northern India.").data)
      (prompt crop) = true ∧
    occurs crop (prompt crop) = true ∧
    occurs (("IMPORTANT: Format the entire response as an HTML unordered list (`<ul>`).").data)
      (prompt crop) = true ∧
    occurs (("Each list item (`<li>`) should contain one tip.").data) (prompt crop) = true ∧
    occurs (("Each tip should start with a relevant emoji.").data) (prompt crop) = true ∧
    occurs (("Example for \"Tomatoes\":").data) (prompt crop) = true ∧
    occurs (("<li>💧 **Water Management:** Ensure consistent watering to prevent blossom-end rot.").data)
      (prompt crop) = true := by
  refine ⟨?_, ?_, ?_, ?_, ?_, ?_, ?_⟩ <;> rw [prompt]
  · exact occurs_append_right _ _ _ (occurs_append_right _ _ _ (occurs_append_right _ _ _
      (occurs_append_right _ _ _ (by decide))))
  · exact occurs_append_right _ _ _ (occurs_append_right _ _ _ (occurs_append_right _ _ _
      (occurs_append_left _ _ _ (occurs_self crop))))
  · exact occurs_append_right _ _ _ (occurs_append_right _ _ _
      (occurs_append_left _ _ _ (by decide)))
  · exact occurs_append_right _ _ _ (occurs_append_right _ _ _
      (occurs_append_left _ _ _ (by decide)))
  · exact occurs_append_right _ _ _ (occurs_append_right _ _ _
      (occurs_append_left _ _ _ (by decide)))
  · exact occurs_append_right _ _ _ (occurs_append_right _ _ _
      (occurs_append_left _ _ _ (by decide)))
  · exact occurs_append_right _ _ _ (occurs_append_right _ _ _
      (occurs_append_left _ _ _ (by decide)))

/-- C9: `if not crop_name` is a truthiness test, so a present-but-falsy
`cropName` (`""`, `null`, `false`, `0` — and nothing else among JSON
scalars) is rejected with `400 {"error": "Crop name is required"}` exactly
as if the field were absent. -/
theorem falsy_cropName_rejected :
    (∀ v : JValue, truthy v = false ↔
      (v = .jnull ∨ v = .jbool false ∨ v = .jnum 0 ∨ v = .jstr [])) ∧
    ∀ (v : JValue) (g : List Char → Except String (List Char)), truthy v = false →
      get_farming_tips true (some v) g = .failure 400 "Crop name is required" ∧
      get_farming_tips true (some v) g = get_farming_tips true none g := by
  constructor
  · intro v
    cases v with
    | jnull => simp [truthy]
    | jbool b => cases b <;> simp [truthy]
    | jnum n => by_cases hn : n = 0 <;> simp [truthy, hn]
    | jstr s => by_cases hs : s = [] <;> simp [truthy, hs]
  · intro v g hv
    exact ⟨by simp [get_farming_tips, pyTruthy, hv], by simp [get_farming_tips, pyTruthy, hv]⟩

/-- C9 (witness): the empty string is rejected like an absent field. -/
theorem falsy_cropName_rejected_witness :
    truthy (.jstr []) = false ∧
    get_farming_tips true (some (.jstr [])) (fun _ => Except.ok []) =
      .failure 400 "Crop name is required" :=
  ⟨by decide, (falsy_cropName_rejected.2 (.jstr []) (fun _ => Except.ok []) (by decide)).1⟩

/-- C10: sanitization removes every occurrence of the fence markers anywhere
in the text, not only wrapping fences at the boundaries; in particular a
triple-backtick sequence interior to the tips text is deleted too. -/
theorem sanitize_removes_all_fences :
    (∀ x : List Char, occurs fence (sanitizeTips x) = false ∧
      occurs fenceHtml (sanitizeTips x) = false) ∧
    sanitizeTips (("<ul>```<li>a</li>```html</ul>").data) =
      (("<ul><li>a</li></ul>").data) :=
  ⟨fun x => ⟨sanitize_noFence x, sanitize_noFenceHtml x⟩, by decide⟩
